import Mathlib

/-!
Verification of the Bezier-curve fitting engine of the airfolio backend
(`src/backend/bezier_fitting.py`) and of the input validation of its HTTP
endpoint (`src/backend/main.py`, `bezier_fit`).

The Python code is shallowly embedded:

* pure numeric routines (`_bernstein_poly`, `generate_curve`,
  `_reconstruct_cps`, `_generate_initial_guess`) become functions over an
  arbitrary linear ordered field, so concrete computations can be run
  over `ℚ` while the statements about the full pipeline live over `ℝ`;
* float arithmetic is modelled by exact field arithmetic;
* code that can raise a Python exception (indexing an empty array,
  `np.zeros` of a negative size, `reshape` with a mismatched size,
  `np.max` of an empty array) is modelled with `Option`, `none` standing
  for the raised exception;
* `scipy.optimize.minimize` is treated as an opaque black box: a value of
  type `Optimizer` maps an objective and a start vector to a result
  holding the final iterate `x` and a `success` flag.  Per scipy's
  contract the reported objective value `result.fun` is the objective
  evaluated at `result.x`, which is how the embedding computes the SSE;
* `scipy.spatial.KDTree.query` is modelled by `nearestIdx`, the first
  index of a point of the sampled curve at minimal Euclidean distance.
-/

namespace Airfolio

section GenericDefs

variable {α : Type} [LinearOrderedField α]

/-- `np.max` over a list: `none` on the empty list (where numpy raises),
otherwise the maximum, computed as numpy does by folding `max`. -/
def npMax : List α → Option α
  | [] => none
  | a :: as => some (as.foldl max a)

/-- `_bernstein_poly(n, i, t)` from `bezier_fitting.py`:
`comb(n, i) * t ** (n - i) * (1 - t) ** i`. -/
def bernsteinPoly (n i : ℕ) (t : α) : α :=
  (n.choose i : α) * t ^ (n - i) * (1 - t) ^ i

/-- Scale a point (a pair of coordinates) by a scalar. -/
def smulP (c : α) (p : α × α) : α × α := (c * p.1, c * p.2)

/-- One point of the curve generated by `generate_curve`: the sum over all
control points of the control point scaled by its basis value. -/
def bezierPointAt (cps : List (α × α)) (t : α) : α × α :=
  ∑ i in Finset.range cps.length,
    smulP (bernsteinPoly (cps.length - 1) i t) (cps.getD i (0, 0))

/-- `generate_curve(control_points, num_points)`: the basis-weighted sums
at the `num_points` values of `np.linspace(0, 1, num_points)`, i.e. at
`t = k / (num_points - 1)`.  (For `num_points = 1` numpy yields `[0.0]`,
matched here because `0 / 0 = 0` in a field.) -/
def generateCurve (cps : List (α × α)) (numPoints : ℕ) : List (α × α) :=
  (List.range numPoints).map
    (fun (k : ℕ) => bezierPointAt cps ((k : α) / ((numPoints : α) - 1)))

/-- Row-major de-flattening of `params[1:]` by `reshape((num_internal, 2))`:
consecutive entries are paired up into interior control points. -/
def toPairs {β : Type} : List β → List (β × β)
  | a :: b :: r => (a, b) :: toPairs r
  | _ => []

/-- `_reconstruct_cps(params, fixed_le, fixed_te)` for a fitter with
`num_cp` control points.  `none` models the Python exceptions:
`params[0]` on an empty vector, the assignment `cps[1] = ...` when the
array has fewer than two rows, and `reshape` when `params[1:]` does not
hold exactly `2 * (num_cp - 3)` entries.  For `num_cp = 2` the assignment
to `cps[1]` lands on the slot that has just been set to the trailing
edge, so the trailing edge is silently overwritten. -/
def reconstructCps (numCp : ℕ) (params : List α) (le te : α × α) :
    Option (List (α × α)) :=
  match params with
  | [] => none
  | p0 :: rest =>
    if numCp < 2 then none
    else if numCp = 2 then some [le, (0, p0)]
    else if numCp = 3 then some [le, (0, p0), te]
    else if rest.length = 2 * (numCp - 3) then
      some (le :: (0, p0) :: (toPairs rest ++ [te]))
    else none

/-- `_generate_initial_guess(surface_data, chord, is_upper)` for a fitter
with `num_cp` control points.  `none` models `np.max` on an empty surface
and `np.zeros(num_free_params)` with a negative size (which numpy rejects
when `num_cp < 3`).  The guess is `max_y * 0.5` for point 1's
y-coordinate followed by, for each interior point `i = 2 .. num_cp - 2`,
the pair `(i * chord / order, max_y)` with `order = num_cp - 1`. -/
def generateInitialGuess (numCp : ℕ) (data : List (α × α)) (chord : α)
    (isUpper : Bool) : Option (List α) :=
  match npMax (data.map (fun q => |q.2|)) with
  | none => none
  | some m =>
    let maxY := if isUpper then m else -m
    if (1 : ℤ) + ((numCp : ℤ) - 3) * 2 < 0 then none
    else some (maxY * (1 / 2) ::
      ((List.range (numCp - 3)).map
        (fun (j : ℕ) => [(((j : α) + 2) * chord) / ((numCp : α) - 1), maxY])).flatten)

/-- x-coordinate of the first sample, `coords[0, 0]`. -/
def firstX (l : List (α × α)) : α := (l.headD (0, 0)).1

/-- x-coordinate of the last sample, `coords[-1, 0]`. -/
def lastX (l : List (α × α)) : α := (l.getLastD (0, 0)).1

/-- Orientation normalization in `fit`: reverse the sample sequence when
`coords[0, 0] > coords[-1, 0]`. -/
def orient (l : List (α × α)) : List (α × α) :=
  if lastX l < firstX l then l.reverse else l

/-- The chord in `fit`: `max(np.max(upper_x), np.max(lower_x))`; `none`
models `np.max` raising on an empty surface. -/
def chordOf (upper lower : List (α × α)) : Option α :=
  match npMax (upper.map Prod.fst), npMax (lower.map Prod.fst) with
  | some uM, some lM => some (max uM lM)
  | _, _ => none

end GenericDefs

/-- Squared Euclidean distance between two points. -/
def sqDist (a b : ℝ × ℝ) : ℝ := (a.1 - b.1) ^ 2 + (a.2 - b.2) ^ 2

/-- `_point_line_segment_distance(px, py, x1, y1, x2, y2)`: perpendicular
distance from a point to a line segment, with the degenerate-segment
guard of the source. -/
noncomputable def pointLineSegmentDistance (px py x1 y1 x2 y2 : ℝ) : ℝ :=
  let dx := x2 - x1
  let dy := y2 - y1
  if dx = 0 ∧ dy = 0 then
    Real.sqrt ((px - x1) ^ 2 + (py - y1) ^ 2)
  else
    let t := ((px - x1) * dx + (py - y1) * dy) / (dx * dx + dy * dy)
    let t' := min (max t 0) 1
    let cx := x1 + t' * dx
    let cy := y1 + t' * dy
    Real.sqrt ((px - cx) ^ 2 + (py - cy) ^ 2)

/-- `KDTree(curve).query(p)`: index of the nearest sampled curve point
(first index at minimal distance). -/
noncomputable def nearestIdx (curve : List (ℝ × ℝ)) (p : ℝ × ℝ) : ℕ :=
  (List.range curve.length).foldl
    (fun best i =>
      if sqDist (curve.getD i (0, 0)) p < sqDist (curve.getD best (0, 0)) p
      then i else best) 0

/-- The body of the loop of `_calculate_error` for one data point: the
squared distance contributed by `point`.  `d1`/`d2` are `none` when the
corresponding adjacent segment does not exist (modelling `float('inf')`),
and the fallback is the distance to the nearest sampled point itself. -/
noncomputable def pointSqError (curve : List (ℝ × ℝ)) (p : ℝ × ℝ) : ℝ :=
  let idx := nearestIdx curve p
  let d1 : Option ℝ :=
    if 0 < idx then
      some (pointLineSegmentDistance p.1 p.2
        (curve.getD (idx - 1) (0, 0)).1 (curve.getD (idx - 1) (0, 0)).2
        (curve.getD idx (0, 0)).1 (curve.getD idx (0, 0)).2)
    else none
  let d2 : Option ℝ :=
    if idx < curve.length - 1 then
      some (pointLineSegmentDistance p.1 p.2
        (curve.getD idx (0, 0)).1 (curve.getD idx (0, 0)).2
        (curve.getD (idx + 1) (0, 0)).1 (curve.getD (idx + 1) (0, 0)).2)
    else none
  let minD : ℝ :=
    match d1, d2 with
    | some a, some b => min a b
    | some a, none => a
    | none, some b => b
    | none, none => Real.sqrt (sqDist p (curve.getD idx (0, 0)))
  minD ^ 2

/-- Total squared error of a sampled curve against the surface data:
the accumulation loop of `_calculate_error`. -/
noncomputable def errorFromCurve (curve data : List (ℝ × ℝ)) : ℝ :=
  (data.map (fun p => pointSqError curve p)).sum

/-- `_calculate_error(free_params, surface_data, fixed_le, fixed_te)`:
reconstruct the control points, sample 200 curve points and sum the
squared point-to-curve distances.  `none` models the exception that
`_reconstruct_cps` raises on an ill-shaped parameter vector. -/
noncomputable def calculateError (numCp : ℕ) (params : List ℝ)
    (data : List (ℝ × ℝ)) (le te : ℝ × ℝ) : Option ℝ :=
  (reconstructCps numCp params le te).map
    (fun cps => errorFromCurve (generateCurve cps 200) data)

/-- Result of `scipy.optimize.minimize`: the final iterate and the
`success` flag.  `result.fun` is not a field because scipy reports it as
the objective evaluated at `result.x`. -/
structure OptResult where
  x : List ℝ
  success : Bool

/-- The optimizer as an opaque black box (SLSQP in the source). -/
def Optimizer := (List ℝ → ℝ) → List ℝ → OptResult

/-- `_fit_surface(surface_data, chord, is_upper)`: build the initial
guess, run the optimizer on `_calculate_error`, and return the control
points reconstructed from the final iterate together with its objective
value — whether or not the optimizer converged.  `none` models the
exceptions of the guess construction and of the final reconstruction. -/
noncomputable def fitSurfaceWith (opt : Optimizer) (numCp : ℕ)
    (data : List (ℝ × ℝ)) (chord : ℝ) (isUpper : Bool) :
    Option (List (ℝ × ℝ) × ℝ) :=
  match generateInitialGuess numCp data chord isUpper with
  | none => none
  | some x0 =>
    match reconstructCps numCp
        ((opt (fun p =>
            (calculateError numCp p data ((0 : ℝ), (0 : ℝ)) (chord, 0)).getD 0) x0).x)
        ((0 : ℝ), (0 : ℝ)) (chord, 0) with
    | none => none
    | some cps => some (cps, errorFromCurve (generateCurve cps 200) data)

/-- The dictionary returned by `BezierFitter.fit`. -/
structure FitResult where
  upper_control_points : List (ℝ × ℝ)
  lower_control_points : List (ℝ × ℝ)
  upper_curve : List (ℝ × ℝ)
  lower_curve : List (ℝ × ℝ)
  upper_sse : ℝ
  lower_sse : ℝ
  order : ℕ

/-- `BezierFitter(order).fit(...)` on surfaces already zipped into point
lists: compute the chord, normalize each surface's orientation, fit both
surfaces and sample both fitted curves.  `none` models any raised
exception. -/
noncomputable def fitWith (opt : Optimizer) (order : ℕ)
    (upper lower : List (ℝ × ℝ)) : Option FitResult :=
  match chordOf upper lower with
  | none => none
  | some chord =>
    match fitSurfaceWith opt (order + 1) (orient upper) chord true,
          fitSurfaceWith opt (order + 1) (orient lower) chord false with
    | some pu, some pl =>
      some ⟨pu.1, pl.1, generateCurve pu.1 200, generateCurve pl.1 200,
            pu.2, pl.2, order⟩
    | _, _ => none

/-- An optimizer respecting scipy's contract that the final iterate has
the shape of the start vector. -/
def ShapeOK (opt : Optimizer) : Prop :=
  ∀ f x0, ((opt f x0).x).length = x0.length

/-- A concrete optimizer that returns its start vector unchanged (zero
iterations); used to instantiate black-box statements. -/
def cOpt : Optimizer := fun _ x0 => ⟨x0, true⟩

section SpecSideDefs

/-! Definitions transcribed from the specification's wording, to be
compared against the embedding of the source. -/

variable {α : Type} [LinearOrderedField α]

/-- Modelled from the spec: the Bernstein basis polynomial
`B_(i,n)(t) = C(n,i) * t^i * (1-t)^(n-i)`. -/
def specBernstein (n i : ℕ) (t : α) : α :=
  (n.choose i : α) * t ^ i * (1 - t) ^ (n - i)

/-- Modelled from the spec: a Bezier curve point, the control points
weighted by the Bernstein basis at parameter `t`. -/
def specBezierPointAt (cps : List (α × α)) (t : α) : α × α :=
  ∑ i in Finset.range cps.length,
    smulP (specBernstein (cps.length - 1) i t) (cps.getD i (0, 0))

/-- Modelled from the spec: the fitted curve as `m` samples of the Bezier
curve at uniform parameter values `t ∈ [0, 1]`. -/
def specGenerateCurve (cps : List (α × α)) (m : ℕ) : List (α × α) :=
  (List.range m).map
    (fun (k : ℕ) => specBezierPointAt cps ((k : α) / ((m : α) - 1)))

/-- Modelled from the spec: perpendicular distance of a point to a
segment — project onto the segment's line, clamp the parameter to
`[0, 1]`, take the Euclidean distance to the clamped point; for a
zero-length segment fall back to the point-to-point distance. -/
noncomputable def specSegDist (p a b : ℝ × ℝ) : ℝ :=
  if a = b then Real.sqrt ((p.1 - a.1) ^ 2 + (p.2 - a.2) ^ 2)
  else
    let s := min (max (((p.1 - a.1) * (b.1 - a.1) + (p.2 - a.2) * (b.2 - a.2)) /
      ((b.1 - a.1) ^ 2 + (b.2 - a.2) ^ 2)) 0) 1
    Real.sqrt ((p.1 - (a.1 + s * (b.1 - a.1))) ^ 2 +
      (p.2 - (a.2 + s * (b.2 - a.2))) ^ 2)

/-- Modelled from the spec: a data point's distance to the fitted curve
is the minimum of the perpendicular distances to the curve segments
adjacent to its nearest sampled curve point; when no adjacent segment
exists, the distance to the nearest sampled point itself. -/
noncomputable def specPointToCurveDistance (curve : List (ℝ × ℝ))
    (p : ℝ × ℝ) : ℝ :=
  let idx := nearestIdx curve p
  let cand : List ℝ :=
    (if 0 < idx then
      [specSegDist p (curve.getD (idx - 1) (0, 0)) (curve.getD idx (0, 0))]
     else []) ++
    (if idx + 1 < curve.length then
      [specSegDist p (curve.getD idx (0, 0)) (curve.getD (idx + 1) (0, 0))]
     else [])
  match cand with
  | [] => Real.sqrt (sqDist (curve.getD idx (0, 0)) p)
  | d :: ds => ds.foldl min d

/-- Modelled from the spec: the objective is the sum of the squared
point-to-curve distances over all data points. -/
noncomputable def specErrorFromCurve (curve data : List (ℝ × ℝ)) : ℝ :=
  (data.map (fun p => (specPointToCurveDistance curve p) ^ 2)).sum

end SpecSideDefs

section EndpointDefs

/-! The `bezier_fit` endpoint of `main.py`.  Coordinates arrive as JSON
floats, which include the non-finite values; they are modelled by an
explicit float-value type so that finiteness is expressible. -/

/-- A JSON/python float: a finite value or one of the non-finite ones. -/
inductive FloatVal where
  | fin (q : ℚ)
  | posInf
  | negInf
  | nan
deriving DecidableEq

/-- Whether a float value is finite. -/
def FloatVal.isFinite : FloatVal → Bool
  | FloatVal.fin _ => true
  | _ => false

/-- The validation prologue of the `bezier_fit` endpoint: the first
failing check's 400-detail message, or `none` when the request proceeds
to the fitter.  These are exactly the checks of `main.py` lines 966-981,
performed before `BezierFitter` is constructed. -/
def bezierFitValidate (ux uy lx ly : List FloatVal) : Option String :=
  if ux.length ≠ uy.length then
    some "Upper X and Y coordinate arrays must have the same length"
  else if lx.length ≠ ly.length then
    some "Lower X and Y coordinate arrays must have the same length"
  else if ux.length < 2 ∨ lx.length < 2 then
    some "Need at least 2 points for upper and lower surfaces"
  else none

end EndpointDefs

section MaxLemmas

variable {α : Type} [LinearOrderedField α]

theorem foldl_max_out (l : List α) : ∀ a b : α,
    l.foldl max (max a b) = max a (l.foldl max b) := by
  induction l with
  | nil => intro a b; rfl
  | cons c r ih =>
    intro a b
    simp only [List.foldl_cons]
    rw [max_assoc]
    exact ih a (max b c)

theorem npMax_concat (xs : List α) (b : α) :
    npMax (xs ++ [b]) = some ((npMax xs).elim b (fun m => max m b)) := by
  cases xs with
  | nil => rfl
  | cons a r =>
    simp only [npMax, List.cons_append, Option.elim]
    rw [List.foldl_append]
    rfl

theorem npMax_reverse (l : List α) : npMax l.reverse = npMax l := by
  induction l with
  | nil => rfl
  | cons a r ih =>
    rw [List.reverse_cons, npMax_concat, ih]
    cases r with
    | nil => rfl
    | cons c s =>
      simp only [npMax, Option.elim, List.foldl_cons]
      rw [foldl_max_out s a c, max_comm]

theorem npMax_isSome (l : List α) (h : l ≠ []) : (npMax l).isSome = true := by
  cases l with
  | nil => exact absurd rfl h
  | cons a r => rfl

end MaxLemmas

section CurveLemmas

variable {α : Type} [LinearOrderedField α]

theorem smulP_zero (p : α × α) : smulP (0 : α) p = 0 := by
  simp [smulP, Prod.ext_iff]

theorem smulP_one (p : α × α) : smulP (1 : α) p = p := by
  simp [smulP]

theorem getD_reverse {β : Type} (l : List β) (i : ℕ) (h : i < l.length) (d : β) :
    l.reverse.getD i d = l.getD (l.length - 1 - i) d := by
  rw [List.getD_eq_getElem?_getD, List.getD_eq_getElem?_getD,
    List.getElem?_reverse h]

theorem bernsteinPoly_zero_left (n i : ℕ) (hi : i < n) :
    bernsteinPoly n i (0 : α) = 0 := by
  have hni : n - i ≠ 0 := by omega
  simp [bernsteinPoly, zero_pow hni]

theorem bernsteinPoly_zero_self (n : ℕ) : bernsteinPoly n n (0 : α) = 1 := by
  simp [bernsteinPoly, Nat.sub_self, Nat.choose_self]

theorem bernsteinPoly_one_left (n i : ℕ) (hi : i ≠ 0) :
    bernsteinPoly n i (1 : α) = 0 := by
  simp [bernsteinPoly, sub_self, zero_pow hi]

theorem bernsteinPoly_one_zero (n : ℕ) : bernsteinPoly n 0 (1 : α) = 1 := by
  simp [bernsteinPoly, Nat.choose_zero_right, sub_self]

theorem bezierPointAt_eq_spec_reverse (cps : List (α × α)) (t : α) :
    bezierPointAt cps t = specBezierPointAt cps.reverse t := by
  unfold bezierPointAt specBezierPointAt
  rw [List.length_reverse]
  conv_rhs => rw [← Finset.sum_range_reflect]
  refine Finset.sum_congr rfl ?_
  intro j hj
  have hjl : j < cps.length := Finset.mem_range.mp hj
  have hj1 : j ≤ cps.length - 1 := by omega
  have hlt : cps.length - 1 - j < cps.length := by omega
  rw [getD_reverse cps (cps.length - 1 - j) hlt]
  have hidx : cps.length - 1 - (cps.length - 1 - j) = j := by omega
  rw [hidx]
  unfold bernsteinPoly specBernstein
  rw [Nat.choose_symm hj1, Nat.sub_sub_self hj1]

theorem bezierPointAt_zero (cps : List (α × α)) (h : cps ≠ []) :
    bezierPointAt cps 0 = cps.getD (cps.length - 1) (0, 0) := by
  have hlen : 0 < cps.length := List.length_pos.mpr h
  unfold bezierPointAt
  rw [Finset.sum_eq_single (cps.length - 1)]
  · rw [bernsteinPoly_zero_self, smulP_one]
  · intro b hb hne
    have hblt : b < cps.length := Finset.mem_range.mp hb
    rw [bernsteinPoly_zero_left _ _ (by omega), smulP_zero]
  · intro hn
    exact absurd (Finset.mem_range.mpr (by omega)) hn

theorem bezierPointAt_one (cps : List (α × α)) (h : cps ≠ []) :
    bezierPointAt cps 1 = cps.getD 0 (0, 0) := by
  have hlen : 0 < cps.length := List.length_pos.mpr h
  unfold bezierPointAt
  rw [Finset.sum_eq_single 0]
  · rw [bernsteinPoly_one_zero, smulP_one]
  · intro b hb hne
    rw [bernsteinPoly_one_left _ _ hne, smulP_zero]
  · intro hn
    exact absurd (Finset.mem_range.mpr (by omega)) hn

theorem generateCurve_eq_spec_reverse (cps : List (α × α)) (m : ℕ) :
    generateCurve cps m = specGenerateCurve cps.reverse m := by
  unfold generateCurve specGenerateCurve
  refine List.map_congr_left ?_
  intro k hk
  exact bezierPointAt_eq_spec_reverse cps _

theorem generateCurve_head? (cps : List (α × α)) (m : ℕ) (h2 : 2 ≤ m)
    (hc : cps ≠ []) : (generateCurve cps m).head? = cps.getLast? := by
  obtain ⟨k, rfl⟩ : ∃ k, m = k + 2 := ⟨m - 2, by omega⟩
  have hlen : 0 < cps.length := List.length_pos.mpr hc
  unfold generateCurve
  rw [List.head?_map]
  have h0 : (List.range (k + 2)).head? = some 0 := by
    rw [List.range_succ_eq_map]; rfl
  rw [h0, List.getLast?_eq_getElem?,
    List.getElem?_eq_getElem (by omega : cps.length - 1 < cps.length)]
  simp only [Option.map_some', Nat.cast_zero, zero_div]
  rw [bezierPointAt_zero cps hc, List.getD_eq_getElem?_getD,
    List.getElem?_eq_getElem (by omega : cps.length - 1 < cps.length)]
  rfl

theorem generateCurve_getLast? (cps : List (α × α)) (m : ℕ) (h2 : 2 ≤ m)
    (hc : cps ≠ []) : (generateCurve cps m).getLast? = cps.head? := by
  obtain ⟨k, rfl⟩ : ∃ k, m = k + 2 := ⟨m - 2, by omega⟩
  have hlen : 0 < cps.length := List.length_pos.mpr hc
  unfold generateCurve
  rw [List.getLast?_map]
  have hlast : (List.range (k + 2)).getLast? = some (k + 1) := by
    rw [List.range_succ, List.getLast?_concat]
  rw [hlast]
  have hk1 : ((k : α) + 1) ≠ 0 := by positivity
  have ht : ((k + 1 : ℕ) : α) / (((k + 2 : ℕ) : α) - 1) = 1 := by
    push_cast
    rw [show ((k : α) + 2) - 1 = (k : α) + 1 by ring]
    exact div_self hk1
  simp only [Option.map_some']
  rw [ht, bezierPointAt_one cps hc]
  cases cps with
  | nil => exact absurd rfl hc
  | cons p r => rfl

end CurveLemmas

section ReconstructLemmas

variable {α : Type} [LinearOrderedField α]

theorem toPairs_length {β : Type} :
    ∀ l : List β, (toPairs l).length = l.length / 2
  | [] => by simp [toPairs]
  | [_] => by simp [toPairs]
  | _ :: _ :: r => by
    simp only [toPairs, List.length_cons, toPairs_length r]
    omega

theorem reconstructCps_shape {numCp : ℕ} {params : List α} {le te : α × α}
    {cps : List (α × α)} (h3 : 3 ≤ numCp)
    (h : reconstructCps numCp params le te = some cps) :
    ∃ p0 rest, params = p0 :: rest ∧
      ((numCp = 3 ∧ cps = [le, (0, p0), te]) ∨
       (4 ≤ numCp ∧ rest.length = 2 * (numCp - 3) ∧
         cps = le :: (0, p0) :: (toPairs rest ++ [te]))) := by
  cases params with
  | nil => simp [reconstructCps] at h
  | cons p0 rest =>
    refine ⟨p0, rest, rfl, ?_⟩
    rcases Nat.lt_or_ge numCp 4 with hlt | hge
    · have h33 : numCp = 3 := by omega
      subst h33
      simp only [reconstructCps] at h
      norm_num at h
      left
      exact ⟨rfl, h.symm⟩
    · have h1 : ¬ (numCp < 2) := by omega
      have h2 : ¬ (numCp = 2) := by omega
      have hq : ¬ (numCp = 3) := by omega
      simp only [reconstructCps, if_neg h1, if_neg h2, if_neg hq] at h
      by_cases hr : rest.length = 2 * (numCp - 3)
      · rw [if_pos hr] at h
        right
        exact ⟨hge, hr, (Option.some_inj.mp h).symm⟩
      · rw [if_neg hr] at h
        exact absurd h (by simp)

theorem reconstructCps_props {numCp : ℕ} {params : List α} {le te : α × α}
    {cps : List (α × α)} (h3 : 3 ≤ numCp)
    (h : reconstructCps numCp params le te = some cps) :
    cps.head? = some le ∧ cps.getLast? = some te ∧
      (cps.getD 1 (0, 0)).1 = 0 ∧ cps.length = numCp := by
  obtain ⟨p0, rest, -, hc⟩ := reconstructCps_shape h3 h
  rcases hc with ⟨h3', rfl⟩ | ⟨h4, hlen, rfl⟩
  · refine ⟨rfl, rfl, rfl, ?_⟩
    simp [h3']
  · refine ⟨rfl, ?_, rfl, ?_⟩
    · rw [show le :: (0, p0) :: (toPairs rest ++ [te])
          = (le :: (0, p0) :: toPairs rest) ++ [te] by simp,
        List.getLast?_concat]
    · have ht := toPairs_length rest
      simp only [List.length_cons, List.length_append, List.length_singleton,
        List.length_nil]
      omega

theorem reconstructCps_isSome {k : ℕ} {x : List α} (le te : α × α)
    (hx : x.length = 1 + 2 * k) :
    (reconstructCps (k + 3) x le te).isSome = true := by
  cases x with
  | nil =>
    simp only [List.length_nil] at hx
    omega
  | cons p0 rest =>
    have hr : rest.length = 2 * k := by
      simp only [List.length_cons] at hx
      omega
    simp only [reconstructCps]
    split_ifs with h1 h2 hq hrr
    · exact absurd h1 (by omega)
    · rfl
    · rfl
    · rfl
    · exact absurd (by omega : rest.length = 2 * (k + 3 - 3)) hrr

end ReconstructLemmas

section GuessLemmas

variable {α : Type} [LinearOrderedField α]

theorem flatten_pairs_length {β : Type} (n : ℕ) (f g : ℕ → β) :
    ((((List.range n).map (fun j => [f j, g j])).flatten).length) = 2 * n := by
  induction n with
  | zero => rfl
  | succ n ih =>
    rw [List.range_succ, List.map_append, List.flatten_append]
    simp only [List.length_append, ih, List.map_cons, List.map_nil,
      List.flatten_cons, List.flatten_nil, List.append_nil, List.length_cons,
      List.length_nil]
    omega

theorem generateInitialGuess_length {numCp : ℕ} {data : List (α × α)}
    {chord : α} {b : Bool} {g : List α}
    (h : generateInitialGuess numCp data chord b = some g) :
    g.length = 1 + 2 * (numCp - 3) := by
  unfold generateInitialGuess at h
  split at h
  · exact absurd h (by simp)
  · by_cases hneg : (1 : ℤ) + ((numCp : ℤ) - 3) * 2 < 0
    · simp only [if_pos hneg] at h
      exact absurd h (by simp)
    · simp only [if_neg hneg] at h
      rw [← Option.some_inj.mp h]
      simp only [List.length_cons, flatten_pairs_length]
      omega

theorem generateInitialGuess_isSome (numCp : ℕ) (data : List (α × α))
    (chord : α) (b : Bool) (hd : data ≠ []) (h3 : 3 ≤ numCp) :
    (generateInitialGuess numCp data chord b).isSome = true := by
  unfold generateInitialGuess
  have hs : (npMax (data.map fun q => |q.2|)).isSome = true :=
    npMax_isSome _ (by simpa using hd)
  obtain ⟨m, hm⟩ := Option.isSome_iff_exists.mp hs
  rw [hm]
  simp only
  rw [if_neg (by omega : ¬ ((1 : ℤ) + ((numCp : ℤ) - 3) * 2 < 0))]
  rfl

end GuessLemmas

section FitLemmas

theorem fitSurfaceWith_some_inv {opt : Optimizer} {numCp : ℕ}
    {data : List (ℝ × ℝ)} {chord : ℝ} {b : Bool} {pr : List (ℝ × ℝ) × ℝ}
    (h : fitSurfaceWith opt numCp data chord b = some pr) :
    ∃ xr : List ℝ,
      reconstructCps numCp xr ((0 : ℝ), (0 : ℝ)) (chord, 0) = some pr.1 ∧
      pr.2 = errorFromCurve (generateCurve pr.1 200) data := by
  unfold fitSurfaceWith at h
  split at h
  · exact absurd h (by simp)
  next x0 hx0 =>
    split at h
    · exact absurd h (by simp)
    next cps hrec =>
      have hp := (Option.some_inj.mp h).symm
      subst hp
      exact ⟨_, hrec, rfl⟩

theorem fitSurfaceWith_isSome (opt : Optimizer) (hopt : ShapeOK opt)
    (numCp : ℕ) (data : List (ℝ × ℝ)) (chord : ℝ) (b : Bool)
    (hd : data ≠ []) (h3 : 3 ≤ numCp) :
    (fitSurfaceWith opt numCp data chord b).isSome = true := by
  obtain ⟨k, rfl⟩ : ∃ k, numCp = k + 3 := ⟨numCp - 3, by omega⟩
  obtain ⟨x0, hx0⟩ := Option.isSome_iff_exists.mp
    (generateInitialGuess_isSome (k + 3) data chord b hd (by omega))
  have hlen : x0.length = 1 + 2 * k := by
    have := generateInitialGuess_length hx0
    omega
  unfold fitSurfaceWith
  rw [hx0]
  dsimp only
  have hrs : (reconstructCps (k + 3)
      ((opt (fun p =>
          (calculateError (k + 3) p data ((0 : ℝ), (0 : ℝ)) (chord, 0)).getD 0) x0).x)
      ((0 : ℝ), (0 : ℝ)) (chord, 0)).isSome = true :=
    reconstructCps_isSome _ _ (by rw [hopt]; exact hlen)
  obtain ⟨cps, hcps⟩ := Option.isSome_iff_exists.mp hrs
  rw [hcps]
  rfl

theorem chordOf_eq_some {u l : List (ℝ × ℝ)} (hu : u ≠ []) (hl : l ≠ []) :
    ∃ c, chordOf u l = some c := by
  obtain ⟨a, ha⟩ := Option.isSome_iff_exists.mp
    (npMax_isSome (u.map Prod.fst) (by simpa using hu))
  obtain ⟨b, hb⟩ := Option.isSome_iff_exists.mp
    (npMax_isSome (l.map Prod.fst) (by simpa using hl))
  refine ⟨max a b, ?_⟩
  unfold chordOf
  rw [ha, hb]

theorem orient_ne_nil {u : List (ℝ × ℝ)} (hu : u ≠ []) : orient u ≠ [] := by
  unfold orient
  split_ifs
  · simpa using hu
  · exact hu

theorem fitWith_isSome {opt : Optimizer} (hopt : ShapeOK opt) (k : ℕ)
    {u l : List (ℝ × ℝ)} (hu : 2 ≤ u.length) (hl : 2 ≤ l.length) :
    (fitWith opt (k + 2) u l).isSome = true := by
  have hu0 : u ≠ [] := by
    intro hn
    rw [hn] at hu
    simp at hu
  have hl0 : l ≠ [] := by
    intro hn
    rw [hn] at hl
    simp at hl
  obtain ⟨c, hc⟩ := chordOf_eq_some hu0 hl0
  unfold fitWith
  rw [hc]
  dsimp only
  obtain ⟨pu, hpu⟩ := Option.isSome_iff_exists.mp
    (fitSurfaceWith_isSome opt hopt (k + 2 + 1) (orient u) c true
      (orient_ne_nil hu0) (by omega))
  obtain ⟨pl, hpl⟩ := Option.isSome_iff_exists.mp
    (fitSurfaceWith_isSome opt hopt (k + 2 + 1) (orient l) c false
      (orient_ne_nil hl0) (by omega))
  rw [hpu, hpl]
  rfl

theorem fitWith_inv {opt : Optimizer} {n : ℕ} {u l : List (ℝ × ℝ)}
    {r : FitResult} (h : fitWith opt n u l = some r) :
    ∃ c pu pl, chordOf u l = some c ∧
      fitSurfaceWith opt (n + 1) (orient u) c true = some pu ∧
      fitSurfaceWith opt (n + 1) (orient l) c false = some pl ∧
      r.upper_control_points = pu.1 ∧ r.lower_control_points = pl.1 ∧
      r.upper_curve = generateCurve pu.1 200 ∧
      r.lower_curve = generateCurve pl.1 200 ∧
      r.upper_sse = pu.2 ∧ r.lower_sse = pl.2 ∧ r.order = n := by
  unfold fitWith at h
  split at h
  · exact absurd h (by simp)
  next c hc =>
    split at h
    next pu pl hpu hpl =>
      have hr := (Option.some_inj.mp h).symm
      subst hr
      exact ⟨c, pu, pl, hc, hpu, hpl, rfl, rfl, rfl, rfl, rfl, rfl, rfl⟩
    next hne => exact absurd h (by simp)

theorem errorFromCurve_reverse (curve data : List (ℝ × ℝ)) :
    errorFromCurve curve data.reverse = errorFromCurve curve data := by
  unfold errorFromCurve
  rw [List.map_reverse, List.sum_reverse]

theorem calculateError_reverse (numCp : ℕ) (params : List ℝ)
    (data : List (ℝ × ℝ)) (le te : ℝ × ℝ) :
    calculateError numCp params data.reverse le te
      = calculateError numCp params data le te := by
  unfold calculateError
  congr 1
  funext cps
  exact errorFromCurve_reverse _ _

theorem generateInitialGuess_reverse {α : Type} [LinearOrderedField α]
    (numCp : ℕ) (data : List (α × α)) (chord : α) (b : Bool) :
    generateInitialGuess numCp data.reverse chord b
      = generateInitialGuess numCp data chord b := by
  unfold generateInitialGuess
  rw [List.map_reverse, npMax_reverse]

theorem fitSurfaceWith_reverse (opt : Optimizer) (numCp : ℕ)
    (data : List (ℝ × ℝ)) (chord : ℝ) (b : Bool) :
    fitSurfaceWith opt numCp data.reverse chord b
      = fitSurfaceWith opt numCp data chord b := by
  unfold fitSurfaceWith
  rw [generateInitialGuess_reverse]
  have hobj : (fun p =>
      (calculateError numCp p data.reverse ((0 : ℝ), (0 : ℝ)) (chord, 0)).getD 0)
      = (fun p =>
      (calculateError numCp p data ((0 : ℝ), (0 : ℝ)) (chord, 0)).getD 0) := by
    funext p
    rw [calculateError_reverse]
  rw [hobj]
  cases hg : generateInitialGuess numCp data chord b with
  | none => rfl
  | some x0 =>
    dsimp only
    cases hrec : reconstructCps numCp
        ((opt (fun p =>
            (calculateError numCp p data ((0 : ℝ), (0 : ℝ)) (chord, 0)).getD 0) x0).x)
        ((0 : ℝ), (0 : ℝ)) (chord, 0) with
    | none => rfl
    | some cps =>
      dsimp only
      rw [errorFromCurve_reverse]

theorem firstX_reverse {α : Type} [LinearOrderedField α] (l : List (α × α)) :
    firstX l.reverse = lastX l := by
  unfold firstX lastX
  rw [List.headD_eq_head?_getD, List.getLastD_eq_getLast?, List.head?_reverse]

theorem lastX_reverse {α : Type} [LinearOrderedField α] (l : List (α × α)) :
    lastX l.reverse = firstX l := by
  unfold firstX lastX
  rw [List.headD_eq_head?_getD, List.getLastD_eq_getLast?, List.getLast?_reverse]

theorem orient_reverse_fitSurface (opt : Optimizer) (numCp : ℕ) (c : ℝ)
    (b : Bool) (u : List (ℝ × ℝ)) :
    fitSurfaceWith opt numCp (orient u.reverse) c b
      = fitSurfaceWith opt numCp (orient u) c b := by
  unfold orient
  rw [firstX_reverse, lastX_reverse]
  rcases lt_trichotomy (lastX u) (firstX u) with hlt | heq | hgt
  · rw [if_neg (not_lt.mpr (le_of_lt hlt)), if_pos hlt]
  · rw [if_neg (not_lt.mpr (le_of_eq heq.symm)), if_neg (not_lt.mpr (le_of_eq heq))]
    exact fitSurfaceWith_reverse opt numCp u c b
  · rw [if_pos hgt, if_neg (not_lt.mpr (le_of_lt hgt)), List.reverse_reverse]

end FitLemmas

section ErrorLemmas

theorem sqDist_comm (a b : ℝ × ℝ) : sqDist a b = sqDist b a := by
  unfold sqDist
  ring

theorem pointLineSegmentDistance_eq_spec (p a b : ℝ × ℝ) :
    pointLineSegmentDistance p.1 p.2 a.1 a.2 b.1 b.2 = specSegDist p a b := by
  simp only [pointLineSegmentDistance, specSegDist]
  by_cases hab : a = b
  · rw [if_pos ⟨by rw [hab, sub_self], by rw [hab, sub_self]⟩, if_pos hab]
  · have hg : ¬ (b.1 - a.1 = 0 ∧ b.2 - a.2 = 0) := by
      rintro ⟨h1, h2⟩
      exact hab (Prod.ext (by linarith) (by linarith))
    rw [if_neg hg, if_neg hab,
      show (b.1 - a.1) * (b.1 - a.1) + (b.2 - a.2) * (b.2 - a.2)
        = (b.1 - a.1) ^ 2 + (b.2 - a.2) ^ 2 by ring]

theorem pointSqError_eq_spec (curve : List (ℝ × ℝ)) (p : ℝ × ℝ) :
    pointSqError curve p = (specPointToCurveDistance curve p) ^ 2 := by
  have e1 := pointLineSegmentDistance_eq_spec p
    (curve.getD (nearestIdx curve p - 1) (0, 0))
    (curve.getD (nearestIdx curve p) (0, 0))
  have e2 := pointLineSegmentDistance_eq_spec p
    (curve.getD (nearestIdx curve p) (0, 0))
    (curve.getD (nearestIdx curve p + 1) (0, 0))
  simp only [pointSqError, specPointToCurveDistance]
  by_cases h1 : 0 < nearestIdx curve p <;>
    by_cases h2 : nearestIdx curve p < curve.length - 1
  · have h2b : nearestIdx curve p + 1 < curve.length := by omega
    rw [if_pos h1, if_pos h2, if_pos h1, if_pos h2b]
    simp only [List.cons_append, List.nil_append, List.foldl_cons,
      List.foldl_nil]
    rw [e1, e2]
  · have h2b : ¬ (nearestIdx curve p + 1 < curve.length) := by omega
    rw [if_pos h1, if_neg h2, if_pos h1, if_neg h2b]
    simp only [List.append_nil, List.foldl_nil]
    rw [e1]
  · have h2b : nearestIdx curve p + 1 < curve.length := by omega
    rw [if_neg h1, if_pos h2, if_neg h1, if_pos h2b]
    simp only [List.nil_append, List.foldl_nil]
    rw [e2]
  · have h2b : ¬ (nearestIdx curve p + 1 < curve.length) := by omega
    rw [if_neg h1, if_neg h2, if_neg h1, if_neg h2b]
    simp only [List.append_nil]
    rw [sqDist_comm]

theorem errorFromCurve_eq_spec (curve data : List (ℝ × ℝ)) :
    errorFromCurve curve data = specErrorFromCurve curve data := by
  unfold errorFromCurve specErrorFromCurve
  exact congrArg List.sum
    (List.map_congr_left (fun p _ => pointSqError_eq_spec curve p))

theorem pointSqError_nonneg (curve : List (ℝ × ℝ)) (p : ℝ × ℝ) :
    0 ≤ pointSqError curve p := by
  simp only [pointSqError]
  exact sq_nonneg _

theorem errorFromCurve_nonneg (curve data : List (ℝ × ℝ)) :
    0 ≤ errorFromCurve curve data := by
  refine List.sum_nonneg ?_
  intro x hx
  obtain ⟨p, -, rfl⟩ := List.mem_map.mp hx
  exact pointSqError_nonneg curve p

end ErrorLemmas

section MoreFitLemmas

theorem chordOf_reverse_left {α : Type} [LinearOrderedField α]
    (u l : List (α × α)) : chordOf u.reverse l = chordOf u l := by
  unfold chordOf
  rw [List.map_reverse, npMax_reverse]

theorem chordOf_reverse_right {α : Type} [LinearOrderedField α]
    (u l : List (α × α)) : chordOf u l.reverse = chordOf u l := by
  unfold chordOf
  rw [List.map_reverse, npMax_reverse]

theorem chordOf_some_ne_nil {u l : List (ℝ × ℝ)} {c : ℝ}
    (h : chordOf u l = some c) : u ≠ [] ∧ l ≠ [] := by
  constructor
  · intro hn
    subst hn
    simp [chordOf, npMax] at h
  · intro hn
    subst hn
    revert h
    unfold chordOf
    cases npMax (u.map Prod.fst) <;> simp [npMax]

end MoreFitLemmas

/-- Claim C1: for every order `n ≥ 2` (control-point count `n + 1 ≥ 3`,
written `k + 3`), whenever `_reconstruct_cps` returns a polygon for fixed
endpoints `(0, 0)` and `(c, 0)`, that polygon starts at `(0, 0)`, ends at
`(c, 0)` and its second point has x-coordinate `0`; consequently both
polygons returned by `fit` (order `k + 2 ≥ 2`) start at `(0, 0)`, end at
`(chord, 0)` for the chord computed from the input, and have second-point
x-coordinate `0`. -/
theorem C1_control_polygon_constraints :
    (∀ (k : ℕ) (params : List ℝ) (c : ℝ),
      match reconstructCps (k + 3) params ((0 : ℝ), (0 : ℝ)) (c, 0) with
      | none => True
      | some cps => cps.head? = some ((0 : ℝ), (0 : ℝ)) ∧
          cps.getLast? = some (c, 0) ∧
          (cps.getD 1 ((0 : ℝ), (0 : ℝ))).1 = 0) ∧
    (∀ (opt : Optimizer) (k : ℕ) (u l : List (ℝ × ℝ)),
      match fitWith opt (k + 2) u l, chordOf u l with
      | some r, some c =>
          r.upper_control_points.head? = some ((0 : ℝ), (0 : ℝ)) ∧
          r.upper_control_points.getLast? = some (c, 0) ∧
          (r.upper_control_points.getD 1 ((0 : ℝ), (0 : ℝ))).1 = 0 ∧
          r.lower_control_points.head? = some ((0 : ℝ), (0 : ℝ)) ∧
          r.lower_control_points.getLast? = some (c, 0) ∧
          (r.lower_control_points.getD 1 ((0 : ℝ), (0 : ℝ))).1 = 0
      | _, _ => True) := by
  constructor
  · intro k params c
    cases hrec : reconstructCps (k + 3) params ((0 : ℝ), (0 : ℝ)) (c, 0) with
    | none => trivial
    | some cps =>
      obtain ⟨hh, hl, h1, -⟩ := reconstructCps_props (by omega) hrec
      exact ⟨hh, hl, h1⟩
  · intro opt k u l
    cases hf : fitWith opt (k + 2) u l with
    | none => cases chordOf u l <;> trivial
    | some r =>
      obtain ⟨c, pu, pl, hc, hpu, hpl, e1, e2, -, -, -, -, -⟩ := fitWith_inv hf
      rw [hc]
      obtain ⟨xu, hrecu, -⟩ := fitSurfaceWith_some_inv hpu
      obtain ⟨xl, hrecl, -⟩ := fitSurfaceWith_some_inv hpl
      obtain ⟨hhu, hlu, h1u, -⟩ := reconstructCps_props (by omega) hrecu
      obtain ⟨hhl, hll, h1l, -⟩ := reconstructCps_props (by omega) hrecl
      dsimp only
      rw [e1, e2]
      exact ⟨hhu, hlu, h1u, hhl, hll, h1l⟩

/-- Claim C3: the objective of `_calculate_error` coincides with the
specification's description — for each data point, the squared minimum of
the perpendicular distances to the (up to two) curve segments adjacent to
its nearest sampled curve point, clamped-projection distance per segment,
with fallback to the distance to the nearest sampled point when no
adjacent segment exists, summed over all data points. -/
theorem C3_objective_matches_spec (curve data : List (ℝ × ℝ)) (numCp : ℕ)
    (params : List ℝ) (le te : ℝ × ℝ) :
    errorFromCurve curve data = specErrorFromCurve curve data ∧
    calculateError numCp params data le te
      = (reconstructCps numCp params le te).map
          (fun cps => specErrorFromCurve (generateCurve cps 200) data) := by
  refine ⟨errorFromCurve_eq_spec curve data, ?_⟩
  unfold calculateError
  congr 1
  funext cps
  exact errorFromCurve_eq_spec _ _

/-- Claim C4: reversing the sample order of either surface (x and y
together) leaves the entire fit result unchanged, for every optimizer,
order and input. -/
theorem C4_orientation_invariance (opt : Optimizer) (n : ℕ)
    (u l : List (ℝ × ℝ)) :
    fitWith opt n u.reverse l = fitWith opt n u l ∧
    fitWith opt n u l.reverse = fitWith opt n u l := by
  constructor
  · unfold fitWith
    rw [chordOf_reverse_left]
    cases hc : chordOf u l with
    | none => rfl
    | some c =>
      dsimp only
      rw [orient_reverse_fitSurface]
  · unfold fitWith
    rw [chordOf_reverse_right]
    cases hc : chordOf u l with
    | none => rfl
    | some c =>
      dsimp only
      rw [orient_reverse_fitSurface]

/-- Claim C6: when the optimizer returns its final iterate `x` without
converging (`success = false`), `_fit_surface` behaves exactly as with a
converged result: no exception, and the returned pair is the polygon
reconstructed from `x` together with the objective value at `x`. -/
theorem C6_nonconvergence_still_returns (k : ℕ) (data : List (ℝ × ℝ))
    (chord : ℝ) (b : Bool) (x : List ℝ) (hd : data ≠ [])
    (hx : x.length = 1 + 2 * k) :
    fitSurfaceWith (fun _ _ => ⟨x, false⟩) (k + 3) data chord b
      = fitSurfaceWith (fun _ _ => ⟨x, true⟩) (k + 3) data chord b ∧
    fitSurfaceWith (fun _ _ => ⟨x, false⟩) (k + 3) data chord b
      = (reconstructCps (k + 3) x ((0 : ℝ), (0 : ℝ)) (chord, 0)).map
          (fun cps => (cps, errorFromCurve (generateCurve cps 200) data)) ∧
    (fitSurfaceWith (fun _ _ => ⟨x, false⟩) (k + 3) data chord b).isSome
      = true := by
  have heq : fitSurfaceWith (fun _ _ => ⟨x, false⟩) (k + 3) data chord b
      = (reconstructCps (k + 3) x ((0 : ℝ), (0 : ℝ)) (chord, 0)).map
          (fun cps => (cps, errorFromCurve (generateCurve cps 200) data)) := by
    obtain ⟨x0, hx0⟩ := Option.isSome_iff_exists.mp
      (generateInitialGuess_isSome (k + 3) data chord b hd (by omega))
    unfold fitSurfaceWith
    rw [hx0]
    dsimp only
    cases hrec : reconstructCps (k + 3) x ((0 : ℝ), (0 : ℝ)) (chord, 0) with
    | none => rfl
    | some cps => rfl
  refine ⟨rfl, heq, ?_⟩
  rw [heq, Option.isSome_map']
  exact reconstructCps_isSome _ _ hx

/-- Claim C6 witness: a concrete instantiation at order 2 (3 control
points), a 2-point surface and final iterate `[2]`. -/
theorem C6_witness :
    fitSurfaceWith (fun _ _ => ⟨[2], false⟩) 3 [((0 : ℝ), 0), (1, 1)] 1 true
      = fitSurfaceWith (fun _ _ => ⟨[2], true⟩) 3 [((0 : ℝ), 0), (1, 1)] 1 true ∧
    fitSurfaceWith (fun _ _ => ⟨[2], false⟩) 3 [((0 : ℝ), 0), (1, 1)] 1 true
      = (reconstructCps 3 [(2 : ℝ)] ((0 : ℝ), (0 : ℝ)) (1, 0)).map
          (fun cps =>
            (cps, errorFromCurve (generateCurve cps 200) [((0 : ℝ), 0), (1, 1)])) ∧
    (fitSurfaceWith (fun _ _ => ⟨[2], false⟩) 3
        [((0 : ℝ), 0), (1, 1)] 1 true).isSome = true :=
  C6_nonconvergence_still_returns 0 [((0 : ℝ), 0), (1, 1)] 1 true [2]
    (by simp) (by simp)

/-- Claim C7: `_point_line_segment_distance` is total — outside the
degenerate guard the divisor `dx*dx + dy*dy` is nonzero, and on a
zero-length segment (coincident endpoints) the function returns the
direct point-to-point Euclidean distance. -/
theorem C7_segment_distance_total (px py x1 y1 x2 y2 : ℝ) :
    ((x2 - x1 = 0 ∧ y2 - y1 = 0) ∨
      (x2 - x1) * (x2 - x1) + (y2 - y1) * (y2 - y1) ≠ 0) ∧
    pointLineSegmentDistance px py x1 y1 x1 y1
      = Real.sqrt ((px - x1) ^ 2 + (py - y1) ^ 2) := by
  constructor
  · by_cases h : x2 - x1 = 0 ∧ y2 - y1 = 0
    · exact Or.inl h
    · right
      intro hz
      apply h
      rw [show (x2 - x1) * (x2 - x1) + (y2 - y1) * (y2 - y1)
          = (x2 - x1) ^ 2 + (y2 - y1) ^ 2 by ring] at hz
      have h1 := (add_eq_zero_iff_of_nonneg (sq_nonneg _) (sq_nonneg _)).mp hz
      exact ⟨sq_eq_zero_iff.mp h1.1, sq_eq_zero_iff.mp h1.2⟩
  · simp only [pointLineSegmentDistance]
    rw [if_pos ⟨sub_self x1, sub_self y1⟩]

/-- Claim C7 witness: concrete instantiation of the totality theorem. -/
theorem C7_witness :
    (((5 : ℝ) - 3 = 0 ∧ (6 : ℝ) - 4 = 0) ∨
      ((5 : ℝ) - 3) * ((5 : ℝ) - 3) + ((6 : ℝ) - 4) * ((6 : ℝ) - 4) ≠ 0) ∧
    pointLineSegmentDistance 1 2 3 4 3 4
      = Real.sqrt (((1 : ℝ) - 3) ^ 2 + ((2 : ℝ) - 4) ^ 2) :=
  C7_segment_distance_total 1 2 3 4 5 6

/-- Claim C10: the objective of `_calculate_error` is non-negative, and
both SSE values in any result returned by `fit` are non-negative. -/
theorem C10_sse_nonneg (curve data : List (ℝ × ℝ)) (opt : Optimizer)
    (n : ℕ) (u l : List (ℝ × ℝ)) :
    0 ≤ errorFromCurve curve data ∧
    (match fitWith opt n u l with
     | none => True
     | some r => 0 ≤ r.upper_sse ∧ 0 ≤ r.lower_sse) := by
  refine ⟨errorFromCurve_nonneg curve data, ?_⟩
  cases hf : fitWith opt n u l with
  | none => trivial
  | some r =>
    obtain ⟨c, pu, pl, -, hpu, hpl, -, -, -, -, h5, h6, -⟩ := fitWith_inv hf
    obtain ⟨xu, -, hsseu⟩ := fitSurfaceWith_some_inv hpu
    obtain ⟨xl, -, hssel⟩ := fitSurfaceWith_some_inv hpl
    dsimp only
    rw [h5, h6, hsseu, hssel]
    exact ⟨errorFromCurve_nonneg _ _, errorFromCurve_nonneg _ _⟩

/-- Claim C2 (amended): `generate_curve` weights point `i` by
`C(n,i) t^(n-i) (1-t)^i = B_(i,n)(1-t)`, so the sampled list equals the
spec's Bernstein-basis Bezier curve of the reversed control polygon at
the `m` uniform parameter values; in particular the first returned point
is `P_n` and the last is `P_0` (not `P_0` / `P_n` as claimed). -/
theorem C2_generate_curve_reversed {α : Type} [LinearOrderedField α]
    (cps : List (α × α)) (m : ℕ) (h2 : 2 ≤ m) (hc : cps ≠ []) :
    generateCurve cps m = specGenerateCurve cps.reverse m ∧
    (generateCurve cps m).head? = cps.getLast? ∧
    (generateCurve cps m).getLast? = cps.head? :=
  ⟨generateCurve_eq_spec_reverse cps m, generateCurve_head? cps m h2 hc,
    generateCurve_getLast? cps m h2 hc⟩

/-- Claim C2 counterexample: for the order-1 polygon `P_0 = (0,0)`,
`P_1 = (1,1)` and 2 sample points, the code's first returned point is
`P_1 = (1,1)`, not `P_0`, and the returned list differs from the spec's
Bernstein-basis evaluation of the same (un-reversed) polygon. -/
theorem C2_counterexample :
    (generateCurve [((0 : ℚ), (0 : ℚ)), (1, 1)] 2).head?
      = some ((1 : ℚ), (1 : ℚ)) ∧
    generateCurve [((0 : ℚ), (0 : ℚ)), (1, 1)] 2
      ≠ specGenerateCurve [((0 : ℚ), (0 : ℚ)), (1, 1)] 2 := by
  have hcode : generateCurve [((0 : ℚ), (0 : ℚ)), (1, 1)] 2
      = [(1, 1), (0, 0)] := by
    simp [generateCurve, bezierPointAt, smulP, bernsteinPoly, List.range_succ,
      Finset.sum_range_succ]
    norm_num
  have hspec : specGenerateCurve [((0 : ℚ), (0 : ℚ)), (1, 1)] 2
      = [(0, 0), (1, 1)] := by
    simp [specGenerateCurve, specBezierPointAt, smulP, specBernstein,
      List.range_succ, Finset.sum_range_succ]
    norm_num
  constructor
  · rw [hcode]
    rfl
  · rw [hcode, hspec]
    intro h
    simp [Prod.ext_iff] at h

/-- Claim C2 witness: concrete instantiation of the amended theorem at an
order-1 polygon over ℚ. -/
theorem C2_witness :
    generateCurve [((0 : ℚ), (0 : ℚ)), (1, 1)] 2
      = specGenerateCurve ([((0 : ℚ), (0 : ℚ)), (1, 1)].reverse) 2 ∧
    (generateCurve [((0 : ℚ), (0 : ℚ)), (1, 1)] 2).head?
      = [((0 : ℚ), (0 : ℚ)), (1, 1)].getLast? ∧
    (generateCurve [((0 : ℚ), (0 : ℚ)), (1, 1)] 2).getLast?
      = [((0 : ℚ), (0 : ℚ)), (1, 1)].head? :=
  C2_generate_curve_reversed [((0 : ℚ), (0 : ℚ)), (1, 1)] 2 (by norm_num)
    (by simp)

/-- Claim C5 counterexample: a request whose upper y-array contains NaN,
with matching lengths and at least 2 points per surface, passes the
endpoint's validation and proceeds to fitting — no InvalidInput rejection
for non-finite coordinates exists in the code. -/
theorem C5_counterexample :
    bezierFitValidate [FloatVal.fin 0, FloatVal.nan]
        [FloatVal.fin 0, FloatVal.fin 1] [FloatVal.fin 0, FloatVal.fin 1]
        [FloatVal.fin 0, FloatVal.fin 1] = none ∧
    ([FloatVal.fin 0, FloatVal.nan].all FloatVal.isFinite) = false :=
  ⟨rfl, rfl⟩

/-- Claim C5 (amended): the `bezier_fit` endpoint's pre-fit validation
rejects with a 400 exactly when the coordinate arrays of a surface have
mismatched lengths or a surface has fewer than 2 points; coordinate
finiteness is never checked. -/
theorem C5_validation_iff (ux uy lx ly : List FloatVal) :
    (bezierFitValidate ux uy lx ly).isSome = true ↔
      (ux.length ≠ uy.length ∨ lx.length ≠ ly.length ∨
        ux.length < 2 ∨ lx.length < 2) := by
  unfold bezierFitValidate
  split_ifs with h1 h2 h3 <;>
    simp only [Option.isSome_some, Option.isSome_none, Bool.false_eq_true,
      true_iff, false_iff, eq_self_iff_true] <;>
    omega

/-- Claim C5 witness: the empty request is rejected by the amended
validation predicate. -/
theorem C5_witness : (bezierFitValidate [] [] [] []).isSome = true :=
  (C5_validation_iff [] [] [] []).mpr (by simp)

section ProjLemmas

theorem fitWith_upper_proj_eq {opt : Optimizer} (hopt : ShapeOK opt) (k : ℕ)
    {u l l' : List (ℝ × ℝ)} (hc : chordOf u l = chordOf u l') :
    (fitWith opt (k + 2) u l).map
        (fun r => (r.upper_control_points, r.upper_curve, r.upper_sse))
      = (fitWith opt (k + 2) u l').map
          (fun r => (r.upper_control_points, r.upper_curve, r.upper_sse)) := by
  unfold fitWith
  rw [← hc]
  cases hc0 : chordOf u l with
  | none => rfl
  | some c =>
    dsimp only
    have hc0' : chordOf u l' = some c := hc.symm.trans hc0
    have hl0 := (chordOf_some_ne_nil hc0).2
    have hl0' := (chordOf_some_ne_nil hc0').2
    obtain ⟨pl1, hpl1⟩ := Option.isSome_iff_exists.mp
      (fitSurfaceWith_isSome opt hopt (k + 2 + 1) (orient l) c false
        (orient_ne_nil hl0) (by omega))
    obtain ⟨pl2, hpl2⟩ := Option.isSome_iff_exists.mp
      (fitSurfaceWith_isSome opt hopt (k + 2 + 1) (orient l') c false
        (orient_ne_nil hl0') (by omega))
    rw [hpl1, hpl2]
    cases hpu : fitSurfaceWith opt (k + 2 + 1) (orient u) c true with
    | none => rfl
    | some pu => rfl

theorem fitWith_lower_proj_eq {opt : Optimizer} (hopt : ShapeOK opt) (k : ℕ)
    {v v' m : List (ℝ × ℝ)} (hc2 : chordOf v m = chordOf v' m) :
    (fitWith opt (k + 2) v m).map
        (fun r => (r.lower_control_points, r.lower_curve, r.lower_sse))
      = (fitWith opt (k + 2) v' m).map
          (fun r => (r.lower_control_points, r.lower_curve, r.lower_sse)) := by
  unfold fitWith
  rw [← hc2]
  cases hc0 : chordOf v m with
  | none => rfl
  | some c =>
    dsimp only
    have hc0' : chordOf v' m = some c := hc2.symm.trans hc0
    have hv0 := (chordOf_some_ne_nil hc0).1
    have hv0' := (chordOf_some_ne_nil hc0').1
    obtain ⟨pu1, hpu1⟩ := Option.isSome_iff_exists.mp
      (fitSurfaceWith_isSome opt hopt (k + 2 + 1) (orient v) c true
        (orient_ne_nil hv0) (by omega))
    obtain ⟨pu2, hpu2⟩ := Option.isSome_iff_exists.mp
      (fitSurfaceWith_isSome opt hopt (k + 2 + 1) (orient v') c true
        (orient_ne_nil hv0') (by omega))
    rw [hpu1, hpu2]
    cases hpl : fitSurfaceWith opt (k + 2 + 1) (orient m) c false with
    | none => rfl
    | some pl => rfl

end ProjLemmas

/-- Claim C8 (amended): the two surface fits share exactly one quantity,
the chord (max x over both surfaces). Two inputs agreeing on the upper
samples and on the chord produce identical upper-surface outputs, and
symmetrically for the lower surface, for any optimizer honoring scipy's
shape contract. -/
theorem C8_surface_independence_upto_chord (opt : Optimizer) (k : ℕ)
    (u l l' v v' m : List (ℝ × ℝ)) (hopt : ShapeOK opt)
    (hc : chordOf u l = chordOf u l') (hc2 : chordOf v m = chordOf v' m) :
    (fitWith opt (k + 2) u l).map
        (fun r => (r.upper_control_points, r.upper_curve, r.upper_sse))
      = (fitWith opt (k + 2) u l').map
          (fun r => (r.upper_control_points, r.upper_curve, r.upper_sse)) ∧
    (fitWith opt (k + 2) v m).map
        (fun r => (r.lower_control_points, r.lower_curve, r.lower_sse))
      = (fitWith opt (k + 2) v' m).map
          (fun r => (r.lower_control_points, r.lower_curve, r.lower_sse)) :=
  ⟨fitWith_upper_proj_eq hopt k hc, fitWith_lower_proj_eq hopt k hc2⟩

/-- Claim C8 witness: surfaces with equal x-arrays (hence equal chords)
but different y-values on the other surface. -/
theorem C8_witness :
    (fitWith cOpt 2 [((0 : ℝ), 0), (1, 1)] [((0 : ℝ), -1), (1, -2)]).map
        (fun r => (r.upper_control_points, r.upper_curve, r.upper_sse))
      = (fitWith cOpt 2 [((0 : ℝ), 0), (1, 1)] [((0 : ℝ), -5), (1, -3)]).map
          (fun r => (r.upper_control_points, r.upper_curve, r.upper_sse)) ∧
    (fitWith cOpt 2 [((0 : ℝ), 0), (1, 1)] [((0 : ℝ), -1), (1, -2)]).map
        (fun r => (r.lower_control_points, r.lower_curve, r.lower_sse))
      = (fitWith cOpt 2 [((0 : ℝ), 2), (1, 1)] [((0 : ℝ), -1), (1, -2)]).map
          (fun r => (r.lower_control_points, r.lower_curve, r.lower_sse)) :=
  C8_surface_independence_upto_chord cOpt 0 [((0 : ℝ), 0), (1, 1)]
    [((0 : ℝ), -1), (1, -2)] [((0 : ℝ), -5), (1, -3)] [((0 : ℝ), 0), (1, 1)]
    [((0 : ℝ), 2), (1, 1)] [((0 : ℝ), -1), (1, -2)] (fun _ _ => rfl) rfl rfl

/-- Claim C8 counterexample: two inputs with the same upper surface but
lower surfaces of different maximal x (different chord) give different
upper-surface control polygons — the upper fit is not independent of the
lower samples. -/
theorem C8_counterexample :
    (fitWith cOpt 2 [((0 : ℝ), 0), (1, 1)] [((0 : ℝ), -1), (1, -1)]).map
        (fun r => r.upper_control_points.getLast?)
      ≠ (fitWith cOpt 2 [((0 : ℝ), 0), (1, 1)] [((0 : ℝ), -1), (2, -1)]).map
          (fun r => r.upper_control_points.getLast?) := by
  have h01 : max (0 : ℝ) 1 = 1 := max_eq_right zero_le_one
  have h02 : max (0 : ℝ) 2 = 2 := max_eq_right (by norm_num)
  have h12 : max (1 : ℝ) 2 = 2 := max_eq_right (by norm_num)
  have hcA : chordOf [((0 : ℝ), 0), (1, 1)] [((0 : ℝ), -1), (1, -1)]
      = some 1 := by
    simp [chordOf, npMax, h01, max_self]
  have hcB : chordOf [((0 : ℝ), 0), (1, 1)] [((0 : ℝ), -1), (2, -1)]
      = some 2 := by
    simp [chordOf, npMax, h01, h02, h12]
  have hA : (fitWith cOpt 2 [((0 : ℝ), 0), (1, 1)]
      [((0 : ℝ), -1), (1, -1)]).isSome = true :=
    fitWith_isSome (fun _ _ => rfl) 0 (by simp) (by simp)
  have hB : (fitWith cOpt 2 [((0 : ℝ), 0), (1, 1)]
      [((0 : ℝ), -1), (2, -1)]).isSome = true :=
    fitWith_isSome (fun _ _ => rfl) 0 (by simp) (by simp)
  obtain ⟨rA, hrA⟩ := Option.isSome_iff_exists.mp hA
  obtain ⟨rB, hrB⟩ := Option.isSome_iff_exists.mp hB
  obtain ⟨cA, puA, plA, hcA', hpuA, -, e1A, -, -, -, -, -, -⟩ := fitWith_inv hrA
  obtain ⟨cB, puB, plB, hcB', hpuB, -, e1B, -, -, -, -, -, -⟩ := fitWith_inv hrB
  obtain ⟨xA, hrecA, -⟩ := fitSurfaceWith_some_inv hpuA
  obtain ⟨xB, hrecB, -⟩ := fitSurfaceWith_some_inv hpuB
  obtain ⟨-, hlastA, -, -⟩ := reconstructCps_props (by omega) hrecA
  obtain ⟨-, hlastB, -, -⟩ := reconstructCps_props (by omega) hrecB
  have hcAv : cA = 1 := by
    rw [hcA] at hcA'
    exact (Option.some_inj.mp hcA'.symm)
  have hcBv : cB = 2 := by
    rw [hcB] at hcB'
    exact (Option.some_inj.mp hcB'.symm)
  intro h
  rw [hrA, hrB] at h
  simp only [Option.map_some'] at h
  rw [e1A, e1B, hlastA, hlastB, hcAv, hcBv] at h
  simp [Prod.ext_iff] at h

/-- Claim C9 (amended): for orders `n ≥ 2` (and an optimizer honoring
scipy's shape contract) `fit` on two surfaces of at least 2 points each
returns a result (raises no exception), both returned polygons have
`n + 1` control points, and the free-parameter vector built by
`_generate_initial_guess` has dimension `1 + 2 * (n - 2)`.  For `n = 1`
the guess construction computes the negative array size `-1` and raises
(see the counterexample). -/
theorem C9_order_dimensions (opt : Optimizer) (k : ℕ)
    (u l data : List (ℝ × ℝ)) (chord : ℝ) (b : Bool) (hopt : ShapeOK opt)
    (hu : 2 ≤ u.length) (hl : 2 ≤ l.length) :
    (fitWith opt (k + 2) u l).isSome = true ∧
    (match fitWith opt (k + 2) u l with
     | none => True
     | some r => r.upper_control_points.length = (k + 2) + 1 ∧
         r.lower_control_points.length = (k + 2) + 1) ∧
    (match generateInitialGuess (k + 3) data chord b with
     | none => True
     | some g => g.length = 1 + 2 * k) := by
  refine ⟨fitWith_isSome hopt k hu hl, ?_, ?_⟩
  · cases hf : fitWith opt (k + 2) u l with
    | none => trivial
    | some r =>
      obtain ⟨c, pu, pl, -, hpu, hpl, e1, e2, -, -, -, -, -⟩ := fitWith_inv hf
      obtain ⟨xu, hrecu, -⟩ := fitSurfaceWith_some_inv hpu
      obtain ⟨xl, hrecl, -⟩ := fitSurfaceWith_some_inv hpl
      obtain ⟨-, -, -, hlu⟩ := reconstructCps_props (by omega) hrecu
      obtain ⟨-, -, -, hll⟩ := reconstructCps_props (by omega) hrecl
      dsimp only
      rw [e1, e2]
      exact ⟨hlu, hll⟩
  · cases hg : generateInitialGuess (k + 3) data chord b with
    | none => trivial
    | some g =>
      have hlen := generateInitialGuess_length hg
      dsimp only
      omega

/-- Claim C9 witness: order 2 on two 2-point surfaces with the
zero-iteration optimizer. -/
theorem C9_witness :
    (fitWith cOpt 2 [((0 : ℝ), 0), (1, 1)] [((0 : ℝ), 0), (1, -1)]).isSome
      = true ∧
    (match fitWith cOpt 2 [((0 : ℝ), 0), (1, 1)] [((0 : ℝ), 0), (1, -1)] with
     | none => True
     | some r => r.upper_control_points.length = 3 ∧
         r.lower_control_points.length = 3) ∧
    (match generateInitialGuess 3 [((0 : ℝ), 0), (1, 1)] (1 : ℝ) true with
     | none => True
     | some g => g.length = 1) :=
  C9_order_dimensions cOpt 0 [((0 : ℝ), 0), (1, 1)] [((0 : ℝ), 0), (1, -1)]
    [((0 : ℝ), 0), (1, 1)] 1 true (fun _ _ => rfl) (by simp) (by simp)

/-- Claim C9 counterexample: with order `n = 1` (2 control points) the
guess construction computes the negative parameter-vector size
`1 + (2 - 3) * 2 = -1`, numpy raises, and `fit` fails — it does not
complete for every order `n ≥ 1`. -/
theorem C9_counterexample :
    fitWith cOpt 1 [((0 : ℝ), 0), (1, 1)] [((0 : ℝ), 0), (1, -1)] = none := by
  have hg : ∀ (d : List (ℝ × ℝ)) (c : ℝ) (b : Bool),
      generateInitialGuess 2 d c b = none := by
    intro d c b
    unfold generateInitialGuess
    cases npMax (d.map fun q => |q.2|) with
    | none => rfl
    | some m =>
      dsimp only
      rw [if_pos (by norm_num : (1 : ℤ) + (((2 : ℕ) : ℤ) - 3) * 2 < 0)]
  have hfs : ∀ (d : List (ℝ × ℝ)) (c : ℝ) (b : Bool),
      fitSurfaceWith cOpt 2 d c b = none := by
    intro d c b
    unfold fitSurfaceWith
    rw [hg]
  unfold fitWith
  cases hc : chordOf [((0 : ℝ), 0), (1, 1)] [((0 : ℝ), 0), (1, -1)] with
  | none => rfl
  | some c =>
    dsimp only
    rw [show (1 : ℕ) + 1 = 2 from rfl, hfs, hfs]

end Airfolio
